import Mathlib

/-
  Verification of the audio-frame module (src/util/frame/audio.rs).

  The module wraps a native AVFrame and offers metadata accessors,
  plane-count computation, typed plane views, raw byte views, allocation
  and deep cloning.  We embed the AVFrame state as a record, machine
  integers as Nat/Int with explicit wrapping, and the byte memory as a
  function from addresses to bytes together with an allocation watermark.
-/

/-- Modelled from the spec: the packing tag of a sample format (the
format enumeration lives outside the given sources; section 8 of the
spec describes it as a closed tagged enumeration, one variant per
numeric family times planar or packed). -/
inductive SampleType where
  | packed
  | planar
deriving DecidableEq

/-- Modelled from the spec: the sample-format enumeration, one variant
per numeric family (8-bit unsigned, 16/32-bit signed, 32/64-bit float)
carrying its packing tag, plus the unset sentinel. -/
inductive Sample where
  | none
  | u8 (t : SampleType)
  | i16 (t : SampleType)
  | i32 (t : SampleType)
  | f32 (t : SampleType)
  | f64 (t : SampleType)
deriving DecidableEq

/-- Modelled from the spec: the planar classification predicate of the
format enumeration, a simple tag match. -/
def Sample.is_planar : Sample → Bool
  | .none => false
  | .u8 t | .i16 t | .i32 t | .f32 t | .f64 t =>
    match t with
    | .planar => true
    | .packed => false

/-- Modelled from the spec: the packed classification predicate of the
format enumeration, a simple tag match. -/
def Sample.is_packed : Sample → Bool
  | .none => false
  | .u8 t | .i16 t | .i32 t | .f32 t | .f64 t =>
    match t with
    | .packed => true
    | .planar => false

/-- Modelled from the spec: the native integer tag of each sample
format (the AVSampleFormat encoding; -1 is the unset sentinel). -/
def Sample.toTag : Sample → Int
  | .none => -1
  | .u8 .packed => 0
  | .i16 .packed => 1
  | .i32 .packed => 2
  | .f32 .packed => 3
  | .f64 .packed => 4
  | .u8 .planar => 5
  | .i16 .planar => 6
  | .i32 .planar => 7
  | .f32 .planar => 8
  | .f64 .planar => 9

/-- Modelled from the spec: decoding a native tag back into the format
enumeration; unknown tags decode to the unset sentinel. -/
def Sample.ofTag (t : Int) : Sample :=
  if t = 0 then .u8 .packed
  else if t = 1 then .i16 .packed
  else if t = 2 then .i32 .packed
  else if t = 3 then .f32 .packed
  else if t = 4 then .f64 .packed
  else if t = 5 then .u8 .planar
  else if t = 6 then .i16 .planar
  else if t = 7 then .i32 .planar
  else if t = 8 then .f32 .planar
  else if t = 9 then .f64 .planar
  else .none

/-- Modelled from the spec: the element size in bytes of each format
family. -/
def Sample.bytesPerSample : Sample → Nat
  | .none => 0
  | .u8 _ => 1
  | .i16 _ => 2
  | .i32 _ => 4
  | .f32 _ => 4
  | .f64 _ => 8

/-- The five element types implementing the `Sample` trait in
audio.rs (u8, i16, i32, f32, f64). -/
inductive Elem where
  | u8
  | i16
  | i32
  | f32
  | f64
deriving DecidableEq

/-- size_of of each supported element type. -/
def Elem.size : Elem → Nat
  | .u8 => 1
  | .i16 => 2
  | .i32 => 4
  | .f32 => 4
  | .f64 => 8

/-- The `is_valid` functions of the `Sample` trait implementations in
audio.rs: each element type accepts exactly its own format family,
packed or planar alike. -/
def Elem.is_valid : Elem → Sample → Bool
  | .u8, .u8 _ => true
  | .i16, .i16 _ => true
  | .i32, .i32 _ => true
  | .f32, .f32 _ => true
  | .f64, .f64 _ => true
  | _, _ => false

/-- Rust cast `usize as c_int`: keep the low 32 bits, reinterpret as a
signed 32-bit integer. -/
def wrap32 (v : Nat) : Int :=
  if v % 2 ^ 32 < 2 ^ 31 then ((v % 2 ^ 32 : Nat) : Int)
  else ((v % 2 ^ 32 : Nat) : Int) - 2 ^ 32

/-- Rust cast `c_int as usize` (64-bit platform): sign-extend to 64
bits and reinterpret as unsigned. -/
def intAsU64 (x : Int) : Nat :=
  (x % (2 ^ 64 : Int)).toNat

/-- Rust cast `c_int as u16`: keep the low 16 bits. -/
def intAsU16 (x : Int) : Nat :=
  (x % (2 ^ 16 : Int)).toNat

/-- Byte memory: contents at every address, plus the allocation
watermark (fresh buffers are placed at the watermark). -/
structure Mem where
  bytes : Nat → Nat
  next : Nat

/-- Writing one byte at an address. -/
def Mem.store (m : Mem) (addr v : Nat) : Mem :=
  { m with bytes := fun x => if x = addr then v else m.bytes x }

/-- The native AVFrame state as the audio module reads and writes it:
the metadata fields, the per-plane line sizes and the per-plane data
pointers (addresses into the byte memory). -/
structure AVFrame where
  format : Int
  nb_samples : Int
  channel_layout : Nat
  channels : Int
  sample_rate : Int
  linesize : Nat → Int
  dataPtr : Nat → Nat

/-- Modelled from the spec: `empty()` delegates to the FrameHandle
allocate-empty primitive, which yields a frame with every field zeroed
and the format tag at the unset sentinel -1, no backing buffer. -/
def Audio.empty : AVFrame :=
  { format := -1
    nb_samples := 0
    channel_layout := 0
    channels := 0
    sample_rate := 0
    linesize := fun _ => 0
    dataPtr := fun _ => 0 }

/-- `format()`: the unset sentinel when the raw tag is -1, otherwise
the decoded tag. -/
def Audio.format (a : AVFrame) : Sample :=
  if a.format = -1 then Sample.none else Sample.ofTag a.format

/-- `set_format(value)`: stores the native tag of the given format. -/
def Audio.set_format (a : AVFrame) (value : Sample) : AVFrame :=
  { a with format := value.toTag }

/-- `channel_layout()`: reads the layout bit-set (the bitflags
round-trip through int64 and from_bits_truncate is the identity on
stored layout values, which are 64-bit bit-sets). -/
def Audio.channel_layout (a : AVFrame) : Nat :=
  a.channel_layout

/-- `set_channel_layout(value)`: stores the layout bits (reduced to 64
bits by the int64 cast). -/
def Audio.set_channel_layout (a : AVFrame) (value : Nat) : AVFrame :=
  { a with channel_layout := value % 2 ^ 64 }

/-- `channels()`: the native channel count cast to u16. -/
def Audio.channels (a : AVFrame) : Nat :=
  intAsU16 a.channels

/-- `set_channels(value)`: stores the channel count. -/
def Audio.set_channels (a : AVFrame) (value : Nat) : AVFrame :=
  { a with channels := ((value % 2 ^ 16 : Nat) : Int) }

/-- `rate()`: the native sample rate cast to u32. -/
def Audio.rate (a : AVFrame) : Nat :=
  (a.sample_rate % (2 ^ 32 : Int)).toNat

/-- `set_rate(value)`: stores the sample rate. -/
def Audio.set_rate (a : AVFrame) (value : Nat) : AVFrame :=
  { a with sample_rate := wrap32 value }

/-- `samples()`: `nb_samples as usize` (sign extension into the 64-bit
unsigned range). -/
def Audio.samples (a : AVFrame) : Nat :=
  intAsU64 a.nb_samples

/-- `set_samples(value)`: `nb_samples = value as c_int` (truncation to
a signed 32-bit integer). -/
def Audio.set_samples (a : AVFrame) (value : Nat) : AVFrame :=
  { a with nb_samples := wrap32 value }

/-- `is_planar()`: delegates to the format predicate. -/
def Audio.is_planar (a : AVFrame) : Bool :=
  (Audio.format a).is_planar

/-- `is_packed()`: delegates to the format predicate. -/
def Audio.is_packed (a : AVFrame) : Bool :=
  (Audio.format a).is_packed

/-- `planes()`: 0 when the first line size is 0, else 1 when packed,
else the channel count. -/
def Audio.planes (a : AVFrame) : Nat :=
  if a.linesize 0 = 0 then 0
  else if Audio.is_packed a then 1
  else Audio.channels a

/-- Number of bits set in the low 64 bits, the channel count derived
from a layout bit-set. -/
def popcount64 (n : Nat) : Nat :=
  (List.range 64).countP fun i => n.testBit i

/-- Modelled from the spec: the FrameHandle buffer-allocation primitive
(av_frame_get_buffer).  It fails, leaving frame and memory unchanged,
when the format is unset or the sample count is not positive or neither
layout nor channel count is set; otherwise it derives the channel count
from the layout when unset, sizes one plane as element-size times
sample count (times channels when packed, alignment hint 1 meaning no
padding), sets the first line size and the plane pointers to a fresh
region at the watermark, and returns 0.  Failure is a negative code. -/
def av_frame_get_buffer (m : Mem) (a : AVFrame) (_align : Int) : Mem × AVFrame × Int :=
  if a.format < 0 then (m, a, -22)
  else if a.nb_samples ≤ 0 then (m, a, -22)
  else if a.channel_layout = 0 ∧ a.channels ≤ 0 then (m, a, -22)
  else
    let ch : Int := if a.channels = 0 then (popcount64 a.channel_layout : Int) else a.channels
    let fmt := Sample.ofTag a.format
    let nplanes : Nat := if fmt.is_packed then 1 else ch.toNat
    let lsz : Int := (fmt.bytesPerSample : Int) * a.nb_samples * (if fmt.is_packed then ch else 1)
    let base := m.next
    ({ m with next := base + nplanes * lsz.toNat },
     { a with
        channels := ch
        linesize := fun i => if i = 0 then lsz else a.linesize i
        dataPtr := fun i => if i < nplanes then base + i * lsz.toNat else 0 },
     0)

/-- `alloc(format, samples, layout)`: set format, set sample count, set
channel layout, then call the buffer-allocation primitive with
alignment 1.  The source discards the return code of the primitive; we keep
it in the result so that theorems can observe the discard. -/
def Audio.alloc (m : Mem) (a : AVFrame) (format : Sample) (samples : Nat) (layout : Nat) :
    Mem × AVFrame × Int :=
  let a1 := Audio.set_format a format
  let a2 := Audio.set_samples a1 samples
  let a3 := Audio.set_channel_layout a2 layout
  av_frame_get_buffer m a3 1

/-- `new(format, samples, layout)`: an empty frame, then `alloc`; the
return code of the allocation primitive is dropped and the frame is
returned unconditionally. -/
def Audio.new (m : Mem) (format : Sample) (samples : Nat) (layout : Nat) : Mem × AVFrame :=
  let r := Audio.alloc m Audio.empty format samples layout
  (r.1, r.2.1)

/-- The slice type returned by `plane`: a raw base address, a length in
elements, and the element size (so the byte extent is len * elemSize). -/
structure TypedSlice where
  ptr : Nat
  len : Nat
  elemSize : Nat
deriving DecidableEq

/-- Byte extent of a typed slice. -/
def TypedSlice.byteLen (s : TypedSlice) : Nat :=
  s.len * s.elemSize

/-- The two panic paths of `plane` and `plane_mut`. -/
inductive PlaneError where
  | outOfBounds
  | unsupportedType
deriving DecidableEq

/-- `plane::<T>(index)`: panic when the index reaches the plane count,
then panic when the element type does not match the format, otherwise
a slice from the plane pointer whose length argument is
size_of::<T>() * samples() (the value the source passes to
slice::from_raw_parts, which counts elements). -/
def Audio.plane (a : AVFrame) (E : Elem) (index : Nat) : Except PlaneError TypedSlice :=
  if index ≥ Audio.planes a then .error .outOfBounds
  else if ! E.is_valid (Audio.format a) then .error .unsupportedType
  else .ok { ptr := a.dataPtr index, len := E.size * Audio.samples a, elemSize := E.size }

/-- `plane_mut::<T>(index)`: the same checks in the same order and the
same slice extent, built with slice::from_raw_parts_mut (the source
declares the returned slice immutable, see the claim analysis). -/
def Audio.plane_mut (a : AVFrame) (E : Elem) (index : Nat) : Except PlaneError TypedSlice :=
  if index ≥ Audio.planes a then .error .outOfBounds
  else if ! E.is_valid (Audio.format a) then .error .unsupportedType
  else .ok { ptr := a.dataPtr index, len := E.size * Audio.samples a, elemSize := E.size }

/-- A raw byte view: base address and length in bytes. -/
structure BytesView where
  ptr : Nat
  len : Nat
deriving DecidableEq

/-- `data()`: for each index below `planes()`, a byte view at that
plane pointer whose length is the FIRST line size cast to usize. -/
def Audio.data (a : AVFrame) : List BytesView :=
  (List.range (Audio.planes a)).map fun i =>
    { ptr := a.dataPtr i, len := intAsU64 (a.linesize 0) }

/-- `data_mut()`: identical geometry, mutable views. -/
def Audio.data_mut (a : AVFrame) : List BytesView :=
  (List.range (Audio.planes a)).map fun i =>
    { ptr := a.dataPtr i, len := intAsU64 (a.linesize 0) }

/-- Bytes of one plane as copied by the contents-copy primitive:
element size times sample count, times channels when packed. -/
def planeBytes (a : AVFrame) : Nat :=
  (Audio.format a).bytesPerSample * Audio.samples a *
    (if (Audio.format a).is_packed then Audio.channels a else 1)

/-- One memcpy of the per-plane copy loop: bytes inside the destination
window are replaced by the corresponding source bytes. -/
def copyPlane (m : Mem) (dstPtr srcPtr n : Nat) : Mem :=
  { m with bytes := fun addr =>
      if dstPtr ≤ addr ∧ addr < dstPtr + n then m.bytes (srcPtr + (addr - dstPtr))
      else m.bytes addr }

/-- The per-plane copy loop over the first `n` planes. -/
def copyPlanes (m : Mem) (dst src : AVFrame) (psz : Nat) : Nat → Mem
  | 0 => m
  | n + 1 => copyPlane (copyPlanes m dst src psz n) (dst.dataPtr n) (src.dataPtr n) psz

/-- Modelled from the spec: the contents-copy primitive
(av_frame_copy).  It rejects mismatched geometry (format, sample count,
channel count or layout differ) with a negative code and no memory
change; otherwise it copies the sample bytes of every plane from source to
destination. -/
def av_frame_copy (m : Mem) (dst src : AVFrame) : Mem × Int :=
  if dst.format = src.format ∧ dst.nb_samples = src.nb_samples ∧
     dst.channels = src.channels ∧ dst.channel_layout = src.channel_layout then
    (copyPlanes m dst src (planeBytes dst) (Audio.planes dst), 0)
  else (m, -22)

/-- Modelled from the spec: the properties-copy primitive
(av_frame_copy_props) copies the descriptive metadata (here the sample
rate) and leaves geometry fields alone. -/
def av_frame_copy_props (dst src : AVFrame) : AVFrame :=
  { dst with sample_rate := src.sample_rate }

/-- `clone_from(source)`: contents copy then properties copy, both
return codes discarded. -/
def Audio.clone_from (m : Mem) (dst src : AVFrame) : Mem × AVFrame :=
  let r := av_frame_copy m dst src
  (r.1, av_frame_copy_props dst src)

/-- `clone()`: a brand-new frame sized from the source metadata, then
`clone_from`. -/
def Audio.clone (m : Mem) (a : AVFrame) : Mem × AVFrame :=
  let r := Audio.new m (Audio.format a) (Audio.samples a) (Audio.channel_layout a)
  Audio.clone_from r.1 r.2 a

/-- The zero-initialised memory used by concrete instances. -/
def mem0 : Mem :=
  { bytes := fun _ => 0, next := 0 }

/-
  Helper lemmas.
-/

/-- Decoding inverts encoding on every format value. -/
theorem Sample.ofTag_toTag (f : Sample) : Sample.ofTag f.toTag = f := by
  cases f with
  | none => rfl
  | u8 t => cases t <;> rfl
  | i16 t => cases t <;> rfl
  | i32 t => cases t <;> rfl
  | f32 t => cases t <;> rfl
  | f64 t => cases t <;> rfl

/-- Set formats have nonnegative tags. -/
theorem Sample.toTag_nonneg (f : Sample) (h : f ≠ Sample.none) : 0 ≤ f.toTag := by
  cases f with
  | none => exact absurd rfl h
  | u8 t => cases t <;> decide
  | i16 t => cases t <;> decide
  | i32 t => cases t <;> decide
  | f32 t => cases t <;> decide
  | f64 t => cases t <;> decide

/-- A planar format is not packed. -/
theorem Sample.not_packed_of_planar (f : Sample) (h : f.is_planar = true) :
    f.is_packed = false := by
  cases f with
  | none => rfl
  | u8 t => cases t <;> simp_all [Sample.is_planar, Sample.is_packed]
  | i16 t => cases t <;> simp_all [Sample.is_planar, Sample.is_packed]
  | i32 t => cases t <;> simp_all [Sample.is_planar, Sample.is_packed]
  | f32 t => cases t <;> simp_all [Sample.is_planar, Sample.is_packed]
  | f64 t => cases t <;> simp_all [Sample.is_planar, Sample.is_packed]

/-- The low-32-bit signed cast is the identity below 2 to the 31. -/
theorem wrap32_eq_of_lt (v : Nat) (h : v < 2 ^ 31) : wrap32 v = (v : Int) := by
  unfold wrap32
  have h32 : v % 2 ^ 32 = v := Nat.mod_eq_of_lt (by omega)
  rw [h32, if_pos h]

/-- The unsigned 64-bit reading of a small nonnegative integer. -/
theorem intAsU64_ofNat (n : Nat) (h : n < 2 ^ 64) : intAsU64 (n : Int) = n := by
  unfold intAsU64
  omega

/-- The unsigned 16-bit reading of a small nonnegative integer. -/
theorem intAsU16_ofNat (n : Nat) (h : n < 2 ^ 16) : intAsU16 (n : Int) = n := by
  unfold intAsU16
  omega

/-- The bit count of a 64-bit value is at most 64. -/
theorem popcount64_le (n : Nat) : popcount64 n ≤ 64 := by
  have := List.countP_le_length (l := List.range 64) (p := fun i => n.testBit i)
  simpa [popcount64] using this

/-
  Claim theorems, first batch.
-/

/-- Claim C3: plane_mut performs the identical bounds check, the
identical format-validity check and returns the identically sized view
as plane, at every frame, element type and index.  (The source however
declares the returned slice with the immutable slice type, so writing
through it is impossible; see the results record.) -/
theorem audio_plane_mut_eq_plane (a : AVFrame) (E : Elem) (i : Nat) :
    Audio.plane_mut a E i = Audio.plane a E i := rfl

/-- Claim C4: plane fails with the out-of-bounds error exactly when the
index reaches the plane count (so on an empty frame every index
fails); for an in-bounds index it fails with the unsupported-type
error exactly when the element type does not match the format; a
successful result implies both checks passed and the view starts at
the requested plane pointer, so neither clamping nor reinterpretation
happens. -/
theorem audio_plane_error_conditions (a : AVFrame) (E : Elem) (i : Nat) :
    (Audio.plane a E i = .error .outOfBounds ↔ Audio.planes a ≤ i)
    ∧ (i < Audio.planes a →
        (Audio.plane a E i = .error .unsupportedType ↔ E.is_valid (Audio.format a) = false))
    ∧ (∀ s, Audio.plane a E i = .ok s →
        i < Audio.planes a ∧ E.is_valid (Audio.format a) = true ∧ s.ptr = a.dataPtr i)
    ∧ Audio.plane Audio.empty E i = .error .outOfBounds := by
  refine ⟨?_, ?_, ?_, ?_⟩
  · unfold Audio.plane
    by_cases h : i ≥ Audio.planes a
    · simp [h]
    · rw [if_neg h]
      by_cases hv : E.is_valid (Audio.format a)
      · simp [hv]
        omega
      · simp [hv]
        omega
  · intro hlt
    unfold Audio.plane
    rw [if_neg (by omega)]
    by_cases hv : E.is_valid (Audio.format a)
    · simp [hv]
    · simp [hv]
  · intro s hs
    unfold Audio.plane at hs
    by_cases h : i ≥ Audio.planes a
    · rw [if_pos h] at hs
      exact absurd hs (by simp)
    · rw [if_neg h] at hs
      by_cases hv : E.is_valid (Audio.format a)
      · simp [hv] at hs
        refine ⟨by omega, hv, ?_⟩
        rw [← hs]
      · simp [hv] at hs
  · unfold Audio.plane
    have hp : Audio.planes Audio.empty = 0 := rfl
    rw [if_pos (by omega)]

/-- Claim C4 witness: on a freshly allocated planar 16-bit stereo frame
(two planes), a mismatched element type at a valid index fails with
the unsupported-type error and an index past the plane count fails
with the out-of-bounds error. -/
theorem audio_plane_error_conditions_witness :
    Audio.plane (Audio.new mem0 (Sample.i16 .planar) 4 3).2 Elem.u8 0 =
      .error .unsupportedType
    ∧ Audio.plane (Audio.new mem0 (Sample.i16 .planar) 4 3).2 Elem.i16 5 =
      .error .outOfBounds := by
  constructor
  · exact ((audio_plane_error_conditions (Audio.new mem0 (Sample.i16 .planar) 4 3).2
      Elem.u8 0).2.1 (by decide)).mpr (by decide)
  · exact (audio_plane_error_conditions (Audio.new mem0 (Sample.i16 .planar) 4 3).2
      Elem.i16 5).1.mpr (by decide)

/-- Claim C9: when the index is out of bounds and the element type is
also mismatched, both plane and plane_mut raise the out-of-bounds
error, because the bounds check runs first. -/
theorem audio_plane_bounds_checked_first (a : AVFrame) (E : Elem) (i : Nat)
    (h1 : Audio.planes a ≤ i) (_h2 : E.is_valid (Audio.format a) = false) :
    Audio.plane a E i = .error .outOfBounds
    ∧ Audio.plane_mut a E i = .error .outOfBounds := by
  unfold Audio.plane Audio.plane_mut
  rw [if_pos (by omega)]
  exact ⟨rfl, rfl⟩

/-- Claim C9 witness: on the empty frame (no planes, unset format) the
u8 element type is invalid and index 0 is out of bounds; both
accessors report out of bounds. -/
theorem audio_plane_bounds_checked_first_witness :
    Audio.plane Audio.empty Elem.u8 0 = .error .outOfBounds
    ∧ Audio.plane_mut Audio.empty Elem.u8 0 = .error .outOfBounds :=
  audio_plane_bounds_checked_first Audio.empty Elem.u8 0 (by decide) (by decide)

/-- Claim C7: alloc is exactly the buffer-allocation primitive applied,
with alignment hint 1, to the frame obtained by first setting the
format, then the sample count, then the channel layout; the frame
handed to the primitive already carries all three requested values. -/
theorem audio_alloc_order (m : Mem) (a : AVFrame) (f : Sample) (s l : Nat) :
    Audio.alloc m a f s l =
      av_frame_get_buffer m
        (Audio.set_channel_layout (Audio.set_samples (Audio.set_format a f) s) l) 1
    ∧ (Audio.set_channel_layout (Audio.set_samples (Audio.set_format a f) s) l).format
        = f.toTag
    ∧ (Audio.set_channel_layout (Audio.set_samples (Audio.set_format a f) s) l).nb_samples
        = wrap32 s
    ∧ (Audio.set_channel_layout (Audio.set_samples (Audio.set_format a f) s) l).channel_layout
        = l % 2 ^ 64 :=
  ⟨rfl, rfl, rfl, rfl⟩

/-- Claim C5: the plane count is 0 whenever the first line size is 0,
else 1 for a packed format and the channel count for a planar format;
in particular the empty frame has no planes. -/
theorem audio_planes_spec (a : AVFrame) :
    (a.linesize 0 = 0 → Audio.planes a = 0)
    ∧ (a.linesize 0 ≠ 0 →
        (Audio.is_packed a = true → Audio.planes a = 1)
        ∧ (Audio.is_planar a = true → Audio.planes a = Audio.channels a))
    ∧ Audio.planes Audio.empty = 0 := by
  refine ⟨?_, ?_, rfl⟩
  · intro h
    simp [Audio.planes, h]
  · intro h
    constructor
    · intro hp
      simp [Audio.planes, h, hp]
    · intro hp
      have hnp : Audio.is_packed a = false := by
        unfold Audio.is_packed
        unfold Audio.is_planar at hp
        exact Sample.not_packed_of_planar _ hp
      simp [Audio.planes, h, hnp]

/-- Claim C5 witness: a freshly allocated planar 16-bit stereo frame
has a nonzero first line size and two planes (its channel count), a
freshly allocated packed 32-bit float stereo frame has one plane, and
the empty frame has none. -/
theorem audio_planes_spec_witness :
    ((Audio.new mem0 (Sample.i16 .planar) 4 3).2.linesize 0 ≠ 0
      ∧ Audio.planes (Audio.new mem0 (Sample.i16 .planar) 4 3).2
          = Audio.channels (Audio.new mem0 (Sample.i16 .planar) 4 3).2
      ∧ Audio.channels (Audio.new mem0 (Sample.i16 .planar) 4 3).2 = 2)
    ∧ ((Audio.new mem0 (Sample.f32 .packed) 4 3).2.linesize 0 ≠ 0
      ∧ Audio.planes (Audio.new mem0 (Sample.f32 .packed) 4 3).2 = 1)
    ∧ Audio.planes Audio.empty = 0 := by
  refine ⟨⟨by decide, ?_, by decide⟩, ⟨by decide, ?_⟩, ?_⟩
  · exact ((audio_planes_spec (Audio.new mem0 (Sample.i16 .planar) 4 3).2).2.1
      (by decide)).2 (by decide)
  · exact ((audio_planes_spec (Audio.new mem0 (Sample.f32 .packed) 4 3).2).2.1
      (by decide)).1 (by decide)
  · exact (audio_planes_spec Audio.empty).2.2

/-- Claim C6: data returns one byte view per index below the plane
count; every view, the later planes included, has the byte length of
the FIRST line size, never the individually stored line size of that
plane (when the two differ, the view length disagrees with the own
line size); data_mut follows the identical sizing rule. -/
theorem audio_data_sizing (a : AVFrame) :
    (Audio.data a).length = Audio.planes a
    ∧ (∀ i (h : i < (Audio.data a).length),
        ((Audio.data a).get ⟨i, h⟩).len = intAsU64 (a.linesize 0)
        ∧ ((Audio.data a).get ⟨i, h⟩).ptr = a.dataPtr i)
    ∧ (∀ i (h : i < (Audio.data a).length),
        intAsU64 (a.linesize i) ≠ intAsU64 (a.linesize 0) →
        ((Audio.data a).get ⟨i, h⟩).len ≠ intAsU64 (a.linesize i))
    ∧ (Audio.data_mut a).length = Audio.planes a
    ∧ (∀ i (h : i < (Audio.data_mut a).length),
        ((Audio.data_mut a).get ⟨i, h⟩).len = intAsU64 (a.linesize 0)
        ∧ ((Audio.data_mut a).get ⟨i, h⟩).ptr = a.dataPtr i) := by
  have hlen : (Audio.data a).length = Audio.planes a := by
    simp [Audio.data]
  have hget : ∀ i (h : i < (Audio.data a).length),
      (Audio.data a).get ⟨i, h⟩ =
        { ptr := a.dataPtr i, len := intAsU64 (a.linesize 0) } := by
    intro i h
    simp [Audio.data, List.get_eq_getElem]
  have hlenm : (Audio.data_mut a).length = Audio.planes a := by
    simp [Audio.data_mut]
  have hgetm : ∀ i (h : i < (Audio.data_mut a).length),
      (Audio.data_mut a).get ⟨i, h⟩ =
        { ptr := a.dataPtr i, len := intAsU64 (a.linesize 0) } := by
    intro i h
    simp [Audio.data_mut, List.get_eq_getElem]
  refine ⟨hlen, ?_, ?_, hlenm, ?_⟩
  · intro i h
    rw [hget i h]
    exact ⟨rfl, rfl⟩
  · intro i h hne
    rw [hget i h]
    exact Ne.symm hne
  · intro i h
    rw [hgetm i h]
    exact ⟨rfl, rfl⟩

/-- A handwritten frame whose stored line sizes differ between plane 0
and plane 1, to exhibit the first-line-size rule of data(). -/
def frameUneven : AVFrame :=
  { format := 6
    nb_samples := 4
    channel_layout := 3
    channels := 2
    sample_rate := 0
    linesize := fun i => if i = 0 then 8 else 4
    dataPtr := fun i => 100 * i }

/-- Claim C6 witness: on a planar frame whose second stored line size
(4) differs from the first (8), data() yields two views and the second
view is sized 8, the first line size, not 4. -/
theorem audio_data_sizing_witness :
    (Audio.data frameUneven).length = 2
    ∧ (1 : Nat) < (Audio.data frameUneven).length
    ∧ intAsU64 (frameUneven.linesize 1) ≠ intAsU64 (frameUneven.linesize 0)
    ∧ ∀ h : 1 < (Audio.data frameUneven).length,
        ((Audio.data frameUneven).get ⟨1, h⟩).len = intAsU64 (frameUneven.linesize 0)
        ∧ ((Audio.data frameUneven).get ⟨1, h⟩).len ≠ intAsU64 (frameUneven.linesize 1) := by
  refine ⟨by decide, by decide, by decide, ?_⟩
  intro h
  exact ⟨((audio_data_sizing frameUneven).2.1 1 h).1,
    (audio_data_sizing frameUneven).2.2.1 1 h (by decide)⟩

/-- Claim C1 (refuting evaluation): on a freshly allocated planar
16-bit mono frame with 4 samples, the plane accessor builds its view
with length argument size_of * samples = 8 ELEMENTS (the argument of
slice::from_raw_parts counts elements), not samples() = 4, so the view
spans 16 bytes while the allocated plane holds only the 8 bytes of its
line size. -/
theorem audio_plane_len_bug :
    Audio.plane (Audio.new mem0 (Sample.i16 .planar) 4 1).2 Elem.i16 0 =
      .ok { ptr := 0, len := 8, elemSize := 2 }
    ∧ Audio.samples (Audio.new mem0 (Sample.i16 .planar) 4 1).2 = 4
    ∧ (8 : Nat) ≠ 4
    ∧ TypedSlice.byteLen { ptr := 0, len := 8, elemSize := 2 } = 16
    ∧ intAsU64 ((Audio.new mem0 (Sample.i16 .planar) 4 1).2.linesize 0) = 8
    ∧ (16 : Nat) > 8 := by
  exact ⟨rfl, rfl, by decide, rfl, rfl, by decide⟩

/-- Claim C2 (counterexample): requesting 0 samples makes the
allocation primitive fail with code -22, yet new returns the frame
anyway, with the memory unchanged and no backing buffer; no error of
any kind surfaces (the return type of new carries no error channel,
mirroring the source signature). -/
theorem audio_new_swallows_alloc_failure :
    (Audio.alloc mem0 Audio.empty (Sample.f32 .packed) 0 3).2.2 = -22
    ∧ Audio.new mem0 (Sample.f32 .packed) 0 3 =
        (mem0, (Audio.alloc mem0 Audio.empty (Sample.f32 .packed) 0 3).2.1)
    ∧ Audio.planes (Audio.new mem0 (Sample.f32 .packed) 0 3).2 = 0 := by
  exact ⟨rfl, rfl, rfl⟩

/-- Claim C2 (amended): new always returns the frame produced by alloc
and discards the allocation code; whenever the primitive reports
failure, the memory is unchanged and the returned frame has no backing
buffer (plane count 0) - the failure is never surfaced to the
caller. -/
theorem audio_new_ignores_alloc_code (m : Mem) (f : Sample) (s l : Nat) :
    Audio.new m f s l =
      ((Audio.alloc m Audio.empty f s l).1, (Audio.alloc m Audio.empty f s l).2.1)
    ∧ ((Audio.alloc m Audio.empty f s l).2.2 < 0 →
        (Audio.alloc m Audio.empty f s l).1 = m
        ∧ Audio.planes (Audio.new m f s l).2 = 0) := by
  refine ⟨rfl, ?_⟩
  simp only [Audio.new, Audio.alloc, av_frame_get_buffer]
  split
  · intro _
    exact ⟨rfl, rfl⟩
  · split
    · intro _
      exact ⟨rfl, rfl⟩
    · split
      · intro _
        exact ⟨rfl, rfl⟩
      · intro hneg
        simp at hneg

/-- Claim C2 witness: the amended statement applied at the failing
input (packed 32-bit float, 0 samples, stereo layout). -/
theorem audio_new_ignores_alloc_code_witness :
    (Audio.alloc mem0 Audio.empty (Sample.f32 .packed) 0 3).2.2 < 0
    ∧ (Audio.alloc mem0 Audio.empty (Sample.f32 .packed) 0 3).1 = mem0
    ∧ Audio.planes (Audio.new mem0 (Sample.f32 .packed) 0 3).2 = 0 := by
  refine ⟨by decide, ?_⟩
  have h := (audio_new_ignores_alloc_code mem0 (Sample.f32 .packed) 0 3).2 (by decide)
  exact h

/-- Claim C10 (counterexample): the round-trip through set_samples
holds at value 2 to the 64 minus 1 (stored as the 32-bit value -1 and
read back sign-extended as 2 to the 64 minus 1), although that value
is not below 2 to the 31; the claimed equivalence of exact round-trip
with smallness therefore fails. -/
theorem audio_set_samples_roundtrip_at_max :
    Audio.samples (Audio.set_samples Audio.empty (2 ^ 64 - 1)) = 2 ^ 64 - 1
    ∧ ¬((2 ^ 64 - 1 : Nat) < 2 ^ 31) := by
  constructor
  · rfl
  · decide

/-- Claim C10 (amended): set_samples stores the value truncated to a
signed 32-bit integer and samples() reads it back sign-extended into
the 64-bit unsigned range; for values below 2 to the 64 the round-trip
is exact precisely when the value is below 2 to the 31 or at least
2 to the 64 minus 2 to the 31 (the sign extension re-creates exactly
the values whose upper bits extend their 32-bit sign). -/
theorem audio_set_samples_wrap_spec (a : AVFrame) (v : Nat) (hv : v < 2 ^ 64) :
    Audio.samples (Audio.set_samples a v) =
      (if v % 2 ^ 32 < 2 ^ 31 then v % 2 ^ 32 else 2 ^ 64 - 2 ^ 32 + v % 2 ^ 32)
    ∧ (Audio.samples (Audio.set_samples a v) = v ↔ (v < 2 ^ 31 ∨ 2 ^ 64 - 2 ^ 31 ≤ v)) := by
  have hrepr : Audio.samples (Audio.set_samples a v) =
      (if v % 2 ^ 32 < 2 ^ 31 then v % 2 ^ 32 else 2 ^ 64 - 2 ^ 32 + v % 2 ^ 32) := by
    show intAsU64 (wrap32 v) = _
    unfold wrap32 intAsU64
    split
    · omega
    · omega
  refine ⟨hrepr, ?_⟩
  rw [hrepr]
  split
  · omega
  · omega

/-- Claim C10 witness: the amended statement applied at a small value
(5 round-trips exactly) and checked against the stated window. -/
theorem audio_set_samples_wrap_spec_witness :
    (5 : Nat) < 2 ^ 64
    ∧ Audio.samples (Audio.set_samples Audio.empty 5) = 5 := by
  refine ⟨by decide, ?_⟩
  have h := (audio_set_samples_wrap_spec Audio.empty 5 (by decide)).2
  exact h.mpr (Or.inl (by decide))

/-
  Infrastructure for the clone round-trip (claim C8).
-/

/-- The unsigned 64-bit reading of a nonnegative in-range integer is
its natural part. -/
theorem intAsU64_eq_toNat (x : Int) (h1 : 0 ≤ x) (h2 : x < 2 ^ 64) :
    intAsU64 x = x.toNat := by
  unfold intAsU64
  omega

/-- The unset sentinel decodes to the unset format. -/
theorem Sample.ofTag_neg_one : Sample.ofTag (-1) = Sample.none := rfl

/-- When the stored tag decodes to a set format, format() is that
decoding. -/
theorem Audio.format_eq_ofTag (a : AVFrame) (h : Sample.ofTag a.format ≠ Sample.none) :
    Audio.format a = Sample.ofTag a.format := by
  unfold Audio.format
  split
  · rename_i hm
    rw [hm] at h
    exact absurd Sample.ofTag_neg_one h
  · rfl

/-- Plane count of a fresh allocation: one plane when packed, the
layout bit count when planar. -/
def allocPlanes (f : Sample) (l : Nat) : Nat :=
  if f.is_packed then 1 else popcount64 l

/-- Line size of a fresh allocation with alignment 1: element size
times sample count, times the layout bit count when packed. -/
def allocLsz (f : Sample) (s l : Nat) : Nat :=
  f.bytesPerSample * s * (if f.is_packed then popcount64 l else 1)

/-- An address outside every destination window is untouched by the
per-plane copy loop. -/
theorem copyPlanes_untouched (m : Mem) (dst src : AVFrame) (psz : Nat) :
    ∀ n addr, (∀ j, j < n → ¬(dst.dataPtr j ≤ addr ∧ addr < dst.dataPtr j + psz)) →
      (copyPlanes m dst src psz n).bytes addr = m.bytes addr := by
  intro n
  induction n with
  | zero =>
    intro addr _
    rfl
  | succ t ih =>
    intro addr h
    simp only [copyPlanes, copyPlane]
    rw [if_neg (h t (by omega))]
    exact ih addr fun j hj => h j (by omega)

/-- Inside the i-th destination window the copy loop has installed the
corresponding source byte, provided destination windows are pairwise
disjoint and every source window is disjoint from every destination
window. -/
theorem copyPlanes_reads (m : Mem) (dst src : AVFrame) (psz : Nat) :
    ∀ n,
      (∀ i j, i < n → j < n → i ≠ j →
        dst.dataPtr i + psz ≤ dst.dataPtr j ∨ dst.dataPtr j + psz ≤ dst.dataPtr i) →
      (∀ i j, i < n → j < n →
        src.dataPtr i + psz ≤ dst.dataPtr j ∨ dst.dataPtr j + psz ≤ src.dataPtr i) →
      ∀ i k, i < n → k < psz →
        (copyPlanes m dst src psz n).bytes (dst.dataPtr i + k) =
          m.bytes (src.dataPtr i + k) := by
  intro n
  induction n with
  | zero =>
    intro _ _ i k hi _
    omega
  | succ t ih =>
    intro hdd hsd i k hi hk
    simp only [copyPlanes, copyPlane]
    by_cases hit : i = t
    · subst hit
      rw [if_pos (by omega)]
      have harg : dst.dataPtr i + k - dst.dataPtr i = k := by omega
      rw [harg]
      exact copyPlanes_untouched m dst src psz i (src.dataPtr i + k) fun j hj => by
        have := hsd i j (by omega) (by omega)
        omega
    · have hwin : ¬(dst.dataPtr t ≤ dst.dataPtr i + k ∧ dst.dataPtr i + k < dst.dataPtr t + psz) := by
        have := hdd i t (by omega) (by omega) hit
        omega
      rw [if_neg hwin]
      exact ih (fun x y hx hy hxy => hdd x y (by omega) (by omega) hxy)
        (fun x y hx hy => hsd x y (by omega) (by omega)) i k (by omega) hk

/-- Two distinct windows of a contiguous equal-sized layout are
disjoint. -/
theorem contiguous_disjoint (N psz i j : Nat) (hij : i ≠ j) :
    (N + i * psz) + psz ≤ N + j * psz ∨ (N + j * psz) + psz ≤ N + i * psz := by
  rcases Nat.lt_or_ge i j with h | h
  · left
    have hm : (i + 1) * psz ≤ j * psz := Nat.mul_le_mul_right psz h
    rw [Nat.succ_mul] at hm
    omega
  · right
    have hj : j < i := lt_of_le_of_ne h (Ne.symm hij)
    have hm : (j + 1) * psz ≤ i * psz := Nat.mul_le_mul_right psz hj
    rw [Nat.succ_mul] at hm
    omega

/-- Shape of a successful fresh allocation: for a set format, a
positive in-range sample count and a nonzero in-range layout, new
returns the memory with the watermark advanced past the fresh planes
and a frame carrying the requested metadata, the channel count derived
from the layout, the computed line size and contiguous plane pointers
starting at the old watermark. -/
theorem new_fields (m : Mem) (f : Sample) (s l : Nat)
    (hf : f ≠ Sample.none) (hs : 0 < s) (hs2 : s < 2 ^ 31) (hl : l ≠ 0) (hl2 : l < 2 ^ 64) :
    (Audio.new m f s l).2.format = f.toTag
    ∧ (Audio.new m f s l).2.nb_samples = (s : Int)
    ∧ (Audio.new m f s l).2.channel_layout = l
    ∧ (Audio.new m f s l).2.channels = (popcount64 l : Int)
    ∧ (Audio.new m f s l).2.sample_rate = 0
    ∧ (Audio.new m f s l).2.linesize 0 = (allocLsz f s l : Int)
    ∧ (∀ i, i < allocPlanes f l →
        (Audio.new m f s l).2.dataPtr i = m.next + i * allocLsz f s l)
    ∧ (Audio.new m f s l).1.bytes = m.bytes
    ∧ (Audio.new m f s l).1.next = m.next + allocPlanes f l * allocLsz f s l := by
  have hnew : Audio.new m f s l =
      ((av_frame_get_buffer m
        { format := f.toTag, nb_samples := (s : Int), channel_layout := l,
          channels := 0, sample_rate := 0, linesize := fun _ => 0, dataPtr := fun _ => 0 } 1).1,
       (av_frame_get_buffer m
        { format := f.toTag, nb_samples := (s : Int), channel_layout := l,
          channels := 0, sample_rate := 0, linesize := fun _ => 0, dataPtr := fun _ => 0 } 1).2.1) := by
    show ((av_frame_get_buffer m
        { format := f.toTag, nb_samples := wrap32 s, channel_layout := l % 2 ^ 64,
          channels := 0, sample_rate := 0, linesize := fun _ => 0, dataPtr := fun _ => 0 } 1).1,
      (av_frame_get_buffer m
        { format := f.toTag, nb_samples := wrap32 s, channel_layout := l % 2 ^ 64,
          channels := 0, sample_rate := 0, linesize := fun _ => 0, dataPtr := fun _ => 0 } 1).2.1) = _
    rw [wrap32_eq_of_lt s hs2, Nat.mod_eq_of_lt hl2]
  have hg1 : ¬ (f.toTag < 0) := not_lt.mpr (Sample.toTag_nonneg f hf)
  have hg2 : ¬ ((s : Int) ≤ 0) := by
    simp only [not_le]
    exact_mod_cast hs
  have hg3 : ¬ (l = 0 ∧ (0 : Int) ≤ 0) := fun hc => hl hc.1
  have hlsz : (f.bytesPerSample : Int) * (s : Int) *
      (if f.is_packed = true then ((popcount64 l : Nat) : Int) else 1) =
      ((allocLsz f s l : Nat) : Int) := by
    unfold allocLsz
    by_cases hp : f.is_packed = true
    · simp only [hp, if_true]
      push_cast
      ring
    · simp only [hp, if_false]
      push_cast
      ring
  have htoNat : ((f.bytesPerSample : Int) * (s : Int) *
      (if f.is_packed = true then ((popcount64 l : Nat) : Int) else 1)).toNat =
      allocLsz f s l := by
    rw [hlsz]
    exact Int.toNat_natCast _
  have hnpN : (if f.is_packed = true then 1 else ((popcount64 l : Nat) : Int).toNat) =
      allocPlanes f l := by
    unfold allocPlanes
    by_cases hp : f.is_packed = true
    · simp [hp]
    · simp [hp]
  rw [hnew]
  unfold av_frame_get_buffer
  rw [if_neg hg1, if_neg hg2, if_neg hg3]
  simp only [if_pos rfl, if_true, Sample.ofTag_toTag]
  refine ⟨trivial, trivial, trivial, trivial, trivial, hlsz, ?_, trivial, ?_⟩
  · intro i hi
    rw [htoNat, hnpN, if_pos hi]
  · rw [htoNat, hnpN]

/-- A well-formed allocated audio frame: the format tag decodes to a
set format and round-trips, the sample count is positive and fits the
signed 32-bit range, the layout is a nonzero 64-bit bit-set whose bit
count is the stored channel count (as the allocation primitive
establishes), the first line size is the positive plane byte size, and
the plane pointers lie contiguously below the allocation watermark. -/
structure WF (m : Mem) (a : AVFrame) : Prop where
  fmt_rt : (Sample.ofTag a.format).toTag = a.format
  fmt_ne : Sample.ofTag a.format ≠ Sample.none
  ns_pos : 0 < a.nb_samples
  ns_lt : a.nb_samples < 2 ^ 31
  lay_ne : a.channel_layout ≠ 0
  lay_lt : a.channel_layout < 2 ^ 64
  ch_eq : a.channels = ((popcount64 a.channel_layout : Nat) : Int)
  psz_pos : 0 < planeBytes a
  lsz_eq : a.linesize 0 = ((planeBytes a : Nat) : Int)
  region : ∃ base, (∀ i, i < Audio.planes a → a.dataPtr i = base + i * planeBytes a)
    ∧ base + Audio.planes a * planeBytes a ≤ m.next

/-- Claim C8: cloning a well-formed allocated frame builds the clone
through new on the source metadata, preserves format, sample count
and channel layout, gives the clone the same plane count, copies every
plane byte (the clone reads equal to the source, whose bytes are
untouched), and places the clone in storage disjoint from the source,
so a subsequent write anywhere inside a source plane changes no byte
of the clone. -/
theorem audio_clone_roundtrip (m : Mem) (a : AVFrame) (h : WF m a) :
    Audio.format (Audio.clone m a).2 = Audio.format a
    ∧ Audio.samples (Audio.clone m a).2 = Audio.samples a
    ∧ Audio.channel_layout (Audio.clone m a).2 = Audio.channel_layout a
    ∧ Audio.planes (Audio.clone m a).2 = Audio.planes a
    ∧ (∀ i k, i < Audio.planes a → k < planeBytes a →
        (Audio.clone m a).1.bytes ((Audio.clone m a).2.dataPtr i + k)
          = (Audio.clone m a).1.bytes (a.dataPtr i + k)
        ∧ (Audio.clone m a).1.bytes (a.dataPtr i + k) = m.bytes (a.dataPtr i + k))
    ∧ (∀ addr v,
        (∃ i, i < Audio.planes a ∧ a.dataPtr i ≤ addr ∧ addr < a.dataPtr i + planeBytes a) →
        ∀ j off, j < Audio.planes a → off < planeBytes a →
          (Mem.store (Audio.clone m a).1 addr v).bytes ((Audio.clone m a).2.dataPtr j + off)
            = (Audio.clone m a).1.bytes ((Audio.clone m a).2.dataPtr j + off))
    ∧ Audio.clone m a =
        Audio.clone_from
          (Audio.new m (Audio.format a) (Audio.samples a) (Audio.channel_layout a)).1
          (Audio.new m (Audio.format a) (Audio.samples a) (Audio.channel_layout a)).2 a := by
  obtain ⟨base, hptr, hbound⟩ := h.region
  have hFe : Audio.format a = Sample.ofTag a.format := Audio.format_eq_ofTag a h.fmt_ne
  have hFne : Audio.format a ≠ Sample.none := by
    rw [hFe]
    exact h.fmt_ne
  have hFtag : (Audio.format a).toTag = a.format := by
    rw [hFe]
    exact h.fmt_rt
  have hch : Audio.channels a = popcount64 a.channel_layout := by
    unfold Audio.channels
    rw [h.ch_eq]
    exact intAsU16_ofNat _ (by have := popcount64_le a.channel_layout; omega)
  have hsam : Audio.samples a = a.nb_samples.toNat :=
    intAsU64_eq_toNat _ (le_of_lt h.ns_pos) (by have := h.ns_lt; omega)
  have hsame_cast : ((Audio.samples a : Nat) : Int) = a.nb_samples := by
    rw [hsam]
    exact Int.toNat_of_nonneg (le_of_lt h.ns_pos)
  have hs_pos : 0 < Audio.samples a := by
    have := h.ns_pos
    rw [hsam]
    omega
  have hs_lt : Audio.samples a < 2 ^ 31 := by
    have h1 := h.ns_pos
    have h2 := h.ns_lt
    rw [hsam]
    omega
  have hpsz : planeBytes a = allocLsz (Audio.format a) (Audio.samples a) a.channel_layout := by
    unfold planeBytes allocLsz
    rw [hch]
  have hpl : Audio.planes a = allocPlanes (Audio.format a) a.channel_layout := by
    unfold Audio.planes allocPlanes Audio.is_packed
    rw [h.lsz_eq, if_neg (by exact_mod_cast Nat.pos_iff_ne_zero.mp h.psz_pos), hch]
  obtain ⟨nfmt, nns, nlay, nch, nrate, nlsz, nptr, nbytes, nnext⟩ :=
    new_fields m (Audio.format a) (Audio.samples a) a.channel_layout
      hFne hs_pos hs_lt h.lay_ne h.lay_lt
  set NW := Audio.new m (Audio.format a) (Audio.samples a) a.channel_layout with hNW
  have hclone : Audio.clone m a = Audio.clone_from NW.1 NW.2 a := by
    rw [hNW]
    rfl
  have hBfmt : NW.2.format = a.format := by
    rw [nfmt, hFtag]
  have hBns : NW.2.nb_samples = a.nb_samples := by
    rw [nns, hsame_cast]
  have hBch : NW.2.channels = a.channels := by
    rw [nch]
    exact h.ch_eq.symm
  have hBFe : Audio.format NW.2 = Audio.format a := by
    unfold Audio.format
    rw [hBfmt]
  have hBsam : Audio.samples NW.2 = Audio.samples a := by
    unfold Audio.samples
    rw [hBns]
  have hBchs : Audio.channels NW.2 = Audio.channels a := by
    unfold Audio.channels
    rw [hBch]
  have hBpsz : planeBytes NW.2 = planeBytes a := by
    unfold planeBytes
    rw [hBFe, hBsam, hBchs]
  have hBpacked : Audio.is_packed NW.2 = Audio.is_packed a := by
    unfold Audio.is_packed
    rw [hBFe]
  have hBlsz : NW.2.linesize 0 = ((planeBytes a : Nat) : Int) := by
    rw [nlsz, hpsz]
  have hBpl : Audio.planes NW.2 = Audio.planes a := by
    unfold Audio.planes
    rw [hBlsz, h.lsz_eq, hBpacked, hBchs]
  have hBptr : ∀ i, i < Audio.planes a → NW.2.dataPtr i = m.next + i * planeBytes a := by
    intro i hi
    rw [hpl] at hi
    rw [nptr i hi, hpsz]
  have hguard : NW.2.format = a.format ∧ NW.2.nb_samples = a.nb_samples ∧
      NW.2.channels = a.channels ∧ NW.2.channel_layout = a.channel_layout :=
    ⟨hBfmt, hBns, hBch, nlay⟩
  have hcopy : av_frame_copy NW.1 NW.2 a =
      (copyPlanes NW.1 NW.2 a (planeBytes a) (Audio.planes a), 0) := by
    unfold av_frame_copy
    rw [if_pos hguard, hBpsz, hBpl]
  have hsrcEnd : ∀ i, i < Audio.planes a → a.dataPtr i + planeBytes a ≤ m.next := by
    intro i hi
    rw [hptr i hi]
    have hm : (i + 1) * planeBytes a ≤ Audio.planes a * planeBytes a :=
      Nat.mul_le_mul_right _ (by omega)
    rw [Nat.succ_mul] at hm
    omega
  have hdd : ∀ i j, i < Audio.planes a → j < Audio.planes a → i ≠ j →
      NW.2.dataPtr i + planeBytes a ≤ NW.2.dataPtr j ∨
      NW.2.dataPtr j + planeBytes a ≤ NW.2.dataPtr i := by
    intro i j hi hj hij
    rw [hBptr i hi, hBptr j hj]
    exact contiguous_disjoint m.next (planeBytes a) i j hij
  have hsd : ∀ i j, i < Audio.planes a → j < Audio.planes a →
      a.dataPtr i + planeBytes a ≤ NW.2.dataPtr j ∨
      NW.2.dataPtr j + planeBytes a ≤ a.dataPtr i := by
    intro i j hi hj
    left
    rw [hBptr j hj]
    have := hsrcEnd i hi
    omega
  have hread : ∀ i k, i < Audio.planes a → k < planeBytes a →
      (copyPlanes NW.1 NW.2 a (planeBytes a) (Audio.planes a)).bytes (NW.2.dataPtr i + k) =
        NW.1.bytes (a.dataPtr i + k) :=
    copyPlanes_reads NW.1 NW.2 a (planeBytes a) (Audio.planes a) hdd hsd
  have huntouched : ∀ i k, i < Audio.planes a → k < planeBytes a →
      (copyPlanes NW.1 NW.2 a (planeBytes a) (Audio.planes a)).bytes (a.dataPtr i + k) =
        NW.1.bytes (a.dataPtr i + k) := by
    intro i k hi hk
    apply copyPlanes_untouched
    intro j hj
    rw [hBptr j hj]
    have h1 := hsrcEnd i hi
    have h2 := hptr i hi
    omega
  have hcl1 : (Audio.clone m a).1 = copyPlanes NW.1 NW.2 a (planeBytes a) (Audio.planes a) := by
    rw [hclone]
    show (av_frame_copy NW.1 NW.2 a).1 = _
    rw [hcopy]
  have hcl2 : (Audio.clone m a).2 = av_frame_copy_props NW.2 a := by
    rw [hclone]
    rfl
  have hPfmt : Audio.format (av_frame_copy_props NW.2 a) = Audio.format NW.2 := rfl
  have hPsam : Audio.samples (av_frame_copy_props NW.2 a) = Audio.samples NW.2 := rfl
  have hPlay : (av_frame_copy_props NW.2 a).channel_layout = NW.2.channel_layout := rfl
  have hPpl : Audio.planes (av_frame_copy_props NW.2 a) = Audio.planes NW.2 := rfl
  have hPptr : ∀ i, (av_frame_copy_props NW.2 a).dataPtr i = NW.2.dataPtr i := fun _ => rfl
  refine ⟨?_, ?_, ?_, ?_, ?_, ?_, ?_⟩
  · rw [hcl2, hPfmt, hBFe]
  · rw [hcl2, hPsam, hBsam]
  · show (Audio.clone m a).2.channel_layout = a.channel_layout
    rw [hcl2, hPlay, nlay]
  · rw [hcl2, hPpl, hBpl]
  · intro i k hi hk
    constructor
    · rw [hcl1, hcl2, hPptr i, hread i k hi hk, huntouched i k hi hk]
    · rw [hcl1, huntouched i k hi hk, nbytes]
  · intro addr v hex j off hj hoff
    obtain ⟨i, hi, hge, hlt⟩ := hex
    have haddr : addr < m.next := by
      have := hsrcEnd i hi
      omega
    rw [hcl1, hcl2, hPptr j, hBptr j hj]
    show (if m.next + j * planeBytes a + off = addr then v else _) = _
    rw [if_neg (by omega)]
  · rw [hclone, hNW]
    rfl

/-- Memory after allocating a planar 16-bit stereo frame with 4
samples from the zero state. -/
def cloneArgMem : Mem :=
  (Audio.new mem0 (Sample.i16 .planar) 4 3).1

/-- The freshly allocated planar 16-bit stereo frame itself. -/
def cloneArgFrame : AVFrame :=
  (Audio.new mem0 (Sample.i16 .planar) 4 3).2

/-- The same memory after writing byte 7 at offset 1 of plane 0. -/
def cloneArgMem2 : Mem :=
  Mem.store cloneArgMem 1 7

/-- Claim C8 witness: the round-trip applied to the concrete stereo
frame above, with sample data written into it: the clone keeps format,
sample count and plane count, and its plane byte at offset 1 equals
the written source byte. -/
theorem audio_clone_roundtrip_witness :
    Audio.format (Audio.clone cloneArgMem2 cloneArgFrame).2 = Audio.format cloneArgFrame
    ∧ Audio.samples (Audio.clone cloneArgMem2 cloneArgFrame).2 = 4
    ∧ Audio.planes (Audio.clone cloneArgMem2 cloneArgFrame).2 = 2
    ∧ (Audio.clone cloneArgMem2 cloneArgFrame).1.bytes
        ((Audio.clone cloneArgMem2 cloneArgFrame).2.dataPtr 0 + 1)
        = cloneArgMem2.bytes (cloneArgFrame.dataPtr 0 + 1) := by
  have hwf : WF cloneArgMem2 cloneArgFrame := by
    refine ⟨by decide, by decide, by decide, by decide, by decide, by decide, by decide,
      by decide, by decide, ⟨0, ?_, by decide⟩⟩
    intro i hi
    have hp : Audio.planes cloneArgFrame = 2 := by decide
    rw [hp] at hi
    interval_cases i
    · decide
    · decide
  have hmain := audio_clone_roundtrip cloneArgMem2 cloneArgFrame hwf
  refine ⟨hmain.1, ?_, ?_, ?_⟩
  · exact hmain.2.1.trans (by decide)
  · exact hmain.2.2.2.1.trans (by decide)
  · have h5 := hmain.2.2.2.2.1 0 1 (by decide) (by decide)
    exact h5.1.trans h5.2
